import Mathlib

/-!
A verification development for the krdp video transport core.

The definitions below are a shallow embedding of the C++ source:
  - VideoStream.cpp (damage geometry, capability negotiation, frame
    submission, frame acknowledge handling, frame-rate adaptation),
  - PortalSession.cpp / PlasmaScreencastV1Session.cpp (packet with
    metadata pairing).

Machine integers are modelled as Int or Nat; the 32-bit frame-id counter
is modelled as an unbounded allocation counter together with an explicit
reduction modulo 2^32.  Qt geometry types (QSize, QRect, QRegion) are
modelled with unbounded integer coordinates; a QRegion is modelled as the
list of rectangles obtained from QRegion.rects, with the region
operations acting rectangle-wise and dropping empty rectangles, which is
the normal form QRegion maintains.
-/

namespace KRdp

/-- QSize: width and height, as in Qt (isEmpty means width < 1 or height < 1). -/
structure QSize where
  w : Int
  h : Int
deriving DecidableEq

def QSize.isEmpty (s : QSize) : Bool :=
  decide (s.w ≤ 0) || decide (s.h ≤ 0)

/-- QRect stored as origin plus extent, matching QRect(x, y, width, height). -/
structure QRect where
  x : Int
  y : Int
  w : Int
  h : Int
deriving DecidableEq

def QRect.isEmpty (r : QRect) : Bool :=
  decide (r.w ≤ 0) || decide (r.h ≤ 0)

def QRect.isNull (r : QRect) : Bool :=
  decide (r.w = 0) && decide (r.h = 0)

/-- QRect.intersected for normalized rectangles: the overlap, or a null
rectangle when the two do not intersect. -/
def QRect.intersected (a b : QRect) : QRect :=
  let x1 := max a.x b.x
  let y1 := max a.y b.y
  let x2 := min (a.x + a.w) (b.x + b.w)
  let y2 := min (a.y + a.h) (b.y + b.h)
  if x1 < x2 ∧ y1 < y2 then ⟨x1, y1, x2 - x1, y2 - y1⟩ else ⟨0, 0, 0, 0⟩

/-- QRect.united for normalized rectangles: a null argument is ignored,
otherwise the bounding box of the two rectangles. -/
def QRect.united (a b : QRect) : QRect :=
  if a.isNull then b
  else if b.isNull then a
  else
    let x1 := min a.x b.x
    let y1 := min a.y b.y
    let x2 := max (a.x + a.w) (b.x + b.w)
    let y2 := max (a.y + a.h) (b.y + b.h)
    ⟨x1, y1, x2 - x1, y2 - y1⟩

/-- A QRegion, modelled as its rectangle decomposition (QRegion.rects). -/
abbrev Region := List QRect

/-- QRegion.isEmpty: the region covers no point. -/
def Region.isEmpty (r : Region) : Bool :=
  r.all fun q => q.isEmpty

/-- The rectangle list of QRegion.intersected with a bounding rectangle:
each rectangle is clipped and empty results are dropped. -/
def Region.intersectedRects (r : Region) (bound : QRect) : List QRect :=
  (r.map fun q => q.intersected bound).filter fun q => !q.isEmpty

/-- VideoFrame as consumed by VideoStream: encoded payload bytes, key-frame
flag, frame size, damage region and optional presentation timestamp. -/
structure VideoFrame where
  data : List Nat
  isKeyFrame : Bool
  size : QSize
  damage : Region
  presentationTimeStamp : Option Int
deriving DecidableEq

/-- RECTANGLE_16 from the wire library; the four coordinates are produced
already clamped to the unsigned 16-bit range. -/
structure RECTANGLE_16 where
  left : Int
  top : Int
  right : Int
  bottom : Int
deriving DecidableEq

def MaxRdpCoordinate : Int := 65535

def MaxQueuedFrames : Nat := 4

def MaxCoalescedDamageRects : Nat := 64

def MaxDamageRectCount : Nat := 128

/-- std.clamp with an ordered pair of bounds. -/
def cppClamp (v lo hi : Int) : Int := max lo (min v hi)

/-- VideoStream.cpp toRdpRect: clamp the corners to the 16-bit range and
expand degenerate extents by one pixel, bounded by the maximum coordinate. -/
def toRdpRect (rect : QRect) : RECTANGLE_16 :=
  let left := cppClamp rect.x 0 MaxRdpCoordinate
  let top := cppClamp rect.y 0 MaxRdpCoordinate
  let right0 := cppClamp (rect.x + rect.w) 0 MaxRdpCoordinate
  let bottom0 := cppClamp (rect.y + rect.h) 0 MaxRdpCoordinate
  let right := if right0 ≤ left then min (left + 1) MaxRdpCoordinate else right0
  let bottom := if bottom0 ≤ top then min (top + 1) MaxRdpCoordinate else bottom0
  ⟨left, top, right, bottom⟩

/-- The inner scan of the coalescing loop, specialised to a fixed first
rectangle: find the first later rectangle whose union with it satisfies the
area test, and return the union together with the list with that partner
removed. -/
def mergeWithFirst (a : QRect) : List QRect → Option (QRect × List QRect)
  | [] => none
  | b :: t =>
    let joined := a.united b
    if joined.w * joined.h ≤ Int.tdiv ((a.w * a.h + b.w * b.h) * 3) 2 then
      some (joined, t)
    else
      match mergeWithFirst a t with
      | some (j, t2) => some (j, b :: t2)
      | none => none

/-- One pass of the pair scan in VideoStream.cpp toDamageRects: the first
qualifying pair (in the i then j iteration order of the source) is merged,
the merged rectangle replacing position i and position j being removed. -/
def findMerge : List QRect → Option (List QRect)
  | [] => none
  | a :: rest =>
    match mergeWithFirst a rest with
    | some (j, rest2) => some (j :: rest2)
    | none =>
      match findMerge rest with
      | some rest2 => some (a :: rest2)
      | none => none

/-- The merge loop of toDamageRects, written with explicit fuel so that it
is structurally recursive.  Every successful merge removes one rectangle,
so fuel equal to the initial list length always suffices; the loop steps
only while the list is longer than MaxCoalescedDamageRects and a merge was
found, exactly as the while loop in the source. -/
def coalesceFuel : Nat → List QRect → List QRect
  | 0, l => l
  | fuel + 1, l =>
    if l.length > MaxCoalescedDamageRects then
      match findMerge l with
      | some l2 => coalesceFuel fuel l2
      | none => l
    else l

def coalesce (l : List QRect) : List QRect := coalesceFuel l.length l

/-- The rectangle list of the damage clipped to the frame bounds, i.e. the
result of frame.damage.intersected(frameBounds).rects() in the source. -/
def clippedDamageRects (frame : VideoFrame) : List QRect :=
  Region.intersectedRects frame.damage ⟨0, 0, frame.size.w, frame.size.h⟩

/-- VideoStream.cpp toDamageRects. -/
def toDamageRects (frame : VideoFrame) : List RECTANGLE_16 :=
  if frame.size.isEmpty then []
  else
    let frameBounds : QRect := ⟨0, 0, frame.size.w, frame.size.h⟩
    let fullRect := toRdpRect frameBounds
    if frame.isKeyFrame || Region.isEmpty frame.damage then [fullRect]
    else
      let damageRects := clippedDamageRects frame
      if damageRects.isEmpty || decide (damageRects.length > MaxDamageRectCount) then
        [fullRect]
      else
        let coalesced := coalesce damageRects
        if coalesced.length > MaxDamageRectCount then [fullRect]
        else
          let rects := coalesced.filterMap fun damageRect =>
            let boundedRect := damageRect.intersected frameBounds
            if boundedRect.isEmpty then none else some (toRdpRect boundedRect)
          if rects.isEmpty then [fullRect] else rects

/-- Well-formedness of an emitted RECTANGLE_16: coordinates within the
16-bit range, edges ordered, and strictly ordered whenever the left or top
edge is below the maximum coordinate. -/
def rdpRectWellFormed (r : RECTANGLE_16) : Bool :=
  decide (0 ≤ r.left) && decide (r.left ≤ r.right) && decide (r.right ≤ MaxRdpCoordinate) &&
  decide (0 ≤ r.top) && decide (r.top ≤ r.bottom) && decide (r.bottom ≤ MaxRdpCoordinate) &&
  (decide (r.left ≥ MaxRdpCoordinate) || decide (r.left < r.right)) &&
  (decide (r.top ≥ MaxRdpCoordinate) || decide (r.top < r.bottom))

/-! ## Capability negotiation (VideoStream.onCapsAdvertise) -/

def RDPGFX_CAPVERSION_8 : Nat := 0x00080004

def RDPGFX_CAPVERSION_81 : Nat := 0x00080105

def RDPGFX_CAPVERSION_10 : Nat := 0x000A0002

def RDPGFX_CAPVERSION_101 : Nat := 0x000A0100

def RDPGFX_CAPVERSION_102 : Nat := 0x000A0200

def RDPGFX_CAPVERSION_103 : Nat := 0x000A0301

def RDPGFX_CAPVERSION_104 : Nat := 0x000A0400

def RDPGFX_CAPVERSION_105 : Nat := 0x000A0502

def RDPGFX_CAPVERSION_106 : Nat := 0x000A0600

def RDPGFX_CAPVERSION_107 : Nat := 0x000A0701

def RDPGFX_CAPS_FLAG_AVC420_ENABLED : Nat := 0x10

def RDPGFX_CAPS_FLAG_AVC_DISABLED : Nat := 0x20

/-- True only when krdp can emit AVC444 payloads end to end; a compile-time
constant from the source tree, not consulted by onCapsAdvertise. -/
def LocalAvc444EncodingAvailable : Bool := false

/-- One advertised capability set of the CAPS_ADVERTISE PDU. -/
structure RDPGFX_CAPSET where
  version : Nat
  flags : Nat
deriving DecidableEq

/-- The per-set record built by the decoding switch of onCapsAdvertise. -/
structure RdpCapsInformation where
  version : Nat
  capSet : RDPGFX_CAPSET
  avcSupported : Bool
  yuv420Supported : Bool
deriving DecidableEq

/-- The decoding switch of onCapsAdvertise: versions 104 to 107 mark YUV420
supported and fall through to the AVC_DISABLED check shared with versions 10
and 101 to 103; version 81 needs the AVC420_ENABLED flag for both bits;
version 8 and unknown versions set nothing. -/
def decodeCaps (set : RDPGFX_CAPSET) : RdpCapsInformation :=
  if set.version = RDPGFX_CAPVERSION_107 ∨ set.version = RDPGFX_CAPVERSION_106 ∨
      set.version = RDPGFX_CAPVERSION_105 ∨ set.version = RDPGFX_CAPVERSION_104 then
    ⟨set.version, set, decide (set.flags &&& RDPGFX_CAPS_FLAG_AVC_DISABLED = 0), true⟩
  else if set.version = RDPGFX_CAPVERSION_103 ∨ set.version = RDPGFX_CAPVERSION_102 ∨
      set.version = RDPGFX_CAPVERSION_101 ∨ set.version = RDPGFX_CAPVERSION_10 then
    ⟨set.version, set, decide (set.flags &&& RDPGFX_CAPS_FLAG_AVC_DISABLED = 0), false⟩
  else if set.version = RDPGFX_CAPVERSION_81 then
    if set.flags &&& RDPGFX_CAPS_FLAG_AVC420_ENABLED ≠ 0 then
      ⟨set.version, set, true, true⟩
    else
      ⟨set.version, set, false, false⟩
  else
    ⟨set.version, set, false, false⟩

/-- The predicate of the std.any_of call: H.264 in YUV420 mode usable. -/
def supportsAvcYuv (caps : RdpCapsInformation) : Bool :=
  caps.avcSupported && caps.yuv420Supported

/-- One comparison step of std.max_element with the version comparator: the
running best is replaced only on strict increase, so ties keep the earlier
list element. -/
def maxByVersionStep (best c : RdpCapsInformation) : RdpCapsInformation :=
  if best.version < c.version then c else best

/-- Outcome of onCapsAdvertise: either the session is closed with
VideoInitFailed and CHANNEL_RC_INITIALIZATION_ERROR is returned (leaving
capsConfirmed false), or a CAPS_CONFIRM PDU echoing one advertised set is
sent and capsConfirmed becomes true. -/
inductive CapsOutcome where
  | rejected
  | confirmed (capSet : RDPGFX_CAPSET)
deriving DecidableEq

/-- VideoStream.onCapsAdvertise: decode every advertised set, require some
set with both AVC and YUV420 support, then confirm the set found by
std.max_element over all decoded sets ordered by version. -/
def onCapsAdvertise (capsSets : List RDPGFX_CAPSET) : CapsOutcome :=
  let capsInformation := capsSets.map decodeCaps
  if capsInformation.any supportsAvcYuv then
    match capsInformation with
    | [] => .rejected
    | first :: others => .confirmed (others.foldl maxByVersionStep first).capSet
  else
    .rejected

/-! ## Frame queue (VideoStream.queueFrame and the submission thread) -/

/-- The overflow loop of queueFrame: while the queue holds more than
MaxQueuedFrames entries, drop the oldest (takeFirst). -/
def trimQueue : List VideoFrame → List VideoFrame
  | [] => []
  | f :: rest =>
    if (f :: rest).length > MaxQueuedFrames then trimQueue rest else f :: rest

/-- VideoStream.queueFrame: ignored unless the connection is streaming and
the stream is enabled; otherwise append and drop oldest entries beyond the
bound. -/
def queueFrame (streaming enabled : Bool) (frameQueue : List VideoFrame)
    (frame : VideoFrame) : List VideoFrame :=
  if !streaming || !enabled then frameQueue
  else trimQueue (frameQueue ++ [frame])

/-- The pop performed by the frame submission thread once the queue is seen
non-empty: takeFirst, i.e. the frame at the front together with the rest of
the queue; an empty queue yields nothing (the thread loops again). -/
def takeNextFrame (frameQueue : List VideoFrame) :
    Option (VideoFrame × List VideoFrame) :=
  match frameQueue with
  | [] => none
  | f :: rest => some (f, rest)

/-- Repeatedly applying takeNextFrame until the queue is exhausted, with
fuel bounded by the queue length: the order in which queued frames reach
sendFrame when no new frames arrive. -/
def drainLoop : Nat → List VideoFrame → List VideoFrame
  | 0, _ => []
  | fuel + 1, frameQueue =>
    match takeNextFrame frameQueue with
    | none => []
    | some (f, rest) => f :: drainLoop fuel rest

def drainOrder (frameQueue : List VideoFrame) : List VideoFrame :=
  drainLoop frameQueue.length frameQueue

/-! ## Frame submission (VideoStream.sendFrame, performReset,
onFrameAcknowledge) -/

structure Surface where
  id : Nat
  size : QSize
deriving DecidableEq

/-- RDPGFX_H264_QUANT_QUALITY entry of the AVC420 bitmap stream metadata. -/
structure RDPGFX_H264_QUANT_QUALITY where
  qp : Nat
  p : Nat
  qualityVal : Nat
deriving DecidableEq

/-- The UTC wall-clock fields read for the START_FRAME timestamp. -/
structure WallClock where
  hour : Nat
  minute : Nat
  second : Nat
  msec : Nat
deriving DecidableEq

/-- The GFX PDUs emitted by performReset and sendFrame, with the fields the
source fills in. -/
inductive Pdu where
  | resetGraphics (width height : Int)
  | createSurface (surfaceId : Nat) (width height : Int)
  | mapSurfaceToOutput (surfaceId : Nat) (originX originY : Int)
  | startFrame (frameId : Nat) (timestamp : Nat)
  | surfaceCommand (surfaceId : Nat) (bounds : RECTANGLE_16)
      (regionRects : List RECTANGLE_16)
      (quantQualityVals : List RDPGFX_H264_QUANT_QUALITY) (dataLength : Nat)
  | endFrame (frameId : Nat)
deriving DecidableEq

/-- The VideoStream private state touched by sendFrame and
onFrameAcknowledge.  The uint32 frame-id counter is modelled by the
unbounded allocation count allocCount; the wire value of the counter is
allocCount % 2^32.  sentFrameIds records every frame id actually written in
a START_FRAME PDU, newest first. -/
structure GfxState where
  gfxOpen : Bool
  capsConfirmed : Bool
  pendingReset : Bool
  nextSurfaceId : Nat
  surface : Surface
  allocCount : Nat
  encodedFrames : Int
  pendingFrames : List Nat
  frameDelay : Int
  sentFrameIds : List Nat
deriving DecidableEq

/-- VideoStream.performReset: RESET_GRAPHICS for a single primary monitor,
CREATE_SURFACE with the next surface id, record the surface, then
MAP_SURFACE_TO_OUTPUT at the origin. -/
def performReset (s : GfxState) (size : QSize) : GfxState × List Pdu :=
  let surfaceId := s.nextSurfaceId
  ({s with nextSurfaceId := surfaceId + 1, surface := ⟨surfaceId, size⟩},
    [.resetGraphics size.w size.h,
      .createSurface surfaceId size.w size.h,
      .mapSurfaceToOutput surfaceId 0 0])

/-- The packed START_FRAME timestamp: hour<<22 | minute<<16 | second<<10 | msec. -/
def timestampEncode (c : WallClock) : Nat :=
  c.hour <<< 22 ||| c.minute <<< 16 ||| c.second <<< 10 ||| c.msec

/-- QSet.insert on the pending-frame id set. -/
def insertPending (l : List Nat) (i : Nat) : List Nat :=
  if i ∈ l then l else i :: l

/-- VideoStream.sendFrame.  Returns the successor state and the list of
PDUs written to the wire, in order.  The bandwidth-measure calls into the
network-detection collaborator carry no state relevant to any claim and are
not modelled.  Note the ordering in the source: the frame id is allocated,
the encoded-frame counter bumped and the id inserted into pendingFrames
before toDamageRects is consulted, so an empty damage list returns with
those effects already applied and nothing sent. -/
def sendFrame (c : WallClock) (s0 : GfxState) (frame : VideoFrame) :
    GfxState × List Pdu :=
  if !s0.gfxOpen || !s0.capsConfirmed then (s0, [])
  else if frame.data.length = 0 then (s0, [])
  else
    let afterReset :=
      if s0.pendingReset then performReset {s0 with pendingReset := false} frame.size
      else (s0, [])
    let s1 := afterReset.1
    let resetPdus := afterReset.2
    let frameId := s1.allocCount % 4294967296
    let s2 := {s1 with
      allocCount := s1.allocCount + 1
      encodedFrames := s1.encodedFrames + 1
      pendingFrames := insertPending s1.pendingFrames frameId}
    let damageRects := toDamageRects frame
    match damageRects with
    | [] => (s2, resetPdus)
    | r0 :: _ =>
      let damageBounds := damageRects.foldl
        (fun acc r => ⟨min acc.left r.left, min acc.top r.top,
          max acc.right r.right, max acc.bottom r.bottom⟩) r0
      let qualities : List RDPGFX_H264_QUANT_QUALITY :=
        List.replicate damageRects.length ⟨22, 0, 100⟩
      let s3 := {s2 with sentFrameIds := frameId :: s2.sentFrameIds}
      (s3, resetPdus ++
        [.startFrame frameId (timestampEncode c),
          .surfaceCommand s2.surface.id damageBounds damageRects qualities
            frame.data.length,
          .endFrame frameId])

/-- The fields of RDPGFX_FRAME_ACKNOWLEDGE_PDU the source reads. -/
structure RDPGFX_FRAME_ACKNOWLEDGE_PDU where
  frameId : Nat
  queueDepth : Nat
  totalFramesDecoded : Int
deriving DecidableEq

/-- VideoStream.onFrameAcknowledge: an unknown frame id is only logged; a
known one updates the frame delay from the decode progress and leaves the
pending set without the id.  The source mixes int and uint32 in the delay
subtraction; no claim depends on the wrapped value, so the subtraction is
modelled on unbounded integers. -/
def onFrameAcknowledge (s : GfxState) (ack : RDPGFX_FRAME_ACKNOWLEDGE_PDU) :
    GfxState :=
  if ack.frameId ∈ s.pendingFrames then
    {s with
      frameDelay := s.encodedFrames - ack.totalFramesDecoded
      pendingFrames := s.pendingFrames.erase ack.frameId}
  else s

/-- The two externally driven transitions of the submission state. -/
inductive StreamEvent where
  | send (c : WallClock) (frame : VideoFrame)
  | ack (a : RDPGFX_FRAME_ACKNOWLEDGE_PDU)

def stepEvent (s : GfxState) (e : StreamEvent) : GfxState :=
  match e with
  | .send c frame => (sendFrame c s frame).1
  | .ack a => onFrameAcknowledge s a

def runEvents (s : GfxState) (es : List StreamEvent) : GfxState :=
  es.foldl stepEvent s

/-- A trace is wire-consistent when every acknowledge names a frame id that
was written to the wire before it arrived, the behaviour of a client that
only acknowledges frames it received. -/
def acksRefsSent : GfxState → List StreamEvent → Bool
  | _, [] => true
  | s, e :: es =>
    (match e with
      | .ack a => decide (a.frameId ∈ s.sentFrameIds)
      | .send _ _ => true) && acksRefsSent (stepEvent s e) es

def countSends : List StreamEvent → Nat
  | [] => 0
  | .send _ _ :: es => countSends es + 1
  | .ack _ :: es => countSends es

/-- Whether a PDU is part of a frame emission (START_FRAME, SURFACE_COMMAND
or END_FRAME). -/
def isFramePdu : Pdu → Bool
  | .startFrame _ _ => true
  | .surfaceCommand _ _ _ _ _ => true
  | .endFrame _ => true
  | _ => false

/-- The quant and quality tables carried by the SURFACE_COMMAND PDUs of an
emission. -/
def surfaceQuantLists (pdus : List Pdu) : List (List RDPGFX_H264_QUANT_QUALITY) :=
  pdus.filterMap fun p =>
    match p with
    | .surfaceCommand _ _ _ q _ => some q
    | _ => none

/-! ## Frame-rate adaptation (VideoStream.updateRequestedFrameRate) -/

structure FrameRateEstimate where
  timeStamp : Int
  estimate : Int
deriving DecidableEq

def FrameRateEstimateAveragePeriod : Int := 1000

/-- The VideoStream private state read and written by
updateRequestedFrameRate; times are in milliseconds. -/
structure FrameRateState where
  frameRateEstimates : List FrameRateEstimate
  lastFrameRateEstimation : Int
  requestedFrameRate : Int
  maximumFrameRate : Int
  frameDelay : Int
deriving DecidableEq

/-- VideoStream.updateRequestedFrameRate, with now and the average RTT in
milliseconds as inputs.  The C++ assignment stores
std.max(1.0, average * 0.5) into an int: for every integer average the
stored value equals max 1 (average / 2) (the double products are exact and
truncation of a value at least 1 is the floor), which is how the double
arithmetic is modelled.  Integer divisions of nonnegative quantities are
written with Int.tdiv, matching C++ truncation. -/
def updateRequestedFrameRate (now rttMs : Int) (s : FrameRateState) :
    FrameRateState :=
  let rtt := max rttMs 1
  let estimate : FrameRateEstimate :=
    ⟨now, min (Int.tdiv 1000 (rtt * max s.frameDelay 1)) s.maximumFrameRate⟩
  let appended := s.frameRateEstimates ++ [estimate]
  if now - s.lastFrameRateEstimation < FrameRateEstimateAveragePeriod then
    {s with frameRateEstimates := appended}
  else
    let kept := appended.filter fun e =>
      !(decide (e.timeStamp - now > FrameRateEstimateAveragePeriod))
    let sum := kept.foldl (fun acc e => acc + e.estimate) 0
    let average := Int.tdiv sum (kept.length : Int)
    let frameRate := max 1 (average / 2)
    {s with
      frameRateEstimates := kept
      lastFrameRateEstimation := now
      requestedFrameRate := frameRate}

/-! ## Packet and metadata pairing (PortalSession.processPendingPackets and
PlasmaScreencastV1Session.processPendingPackets; the two bodies are
identical except that the portal variant also copies a monitor layout into
the frame, which no claim touches, so the session variant is modelled). -/

structure Packet where
  data : List Nat
  isKeyFrame : Bool
deriving DecidableEq

structure PendingEncodedPacket where
  packet : Packet
  queuedAt : Int
deriving DecidableEq

structure EncodedPacketMetadata where
  size : QSize
  damage : Region
  presentationTimeStamp : Int
  hasSize : Bool
  hasDamage : Bool
  hasPresentationTimeStamp : Bool
deriving DecidableEq

def MaxPendingFrameMetadata : Nat := 128

def MaxPendingPacketsWithoutMetadata : Nat := 8

def MetadataPairWaitBudget : Int := 12

/-- The two-second miss-log rate limit, in milliseconds. -/
def MetadataMissLogPeriod : Int := 2000

/-- fullFrameDamage from the session files. -/
def fullFrameDamage (size : QSize) : Region :=
  if size.isEmpty then [] else [⟨0, 0, size.w, size.h⟩]

/-- clippedDamage from the session files. -/
def clippedDamage (damage : Region) (size : QSize) : Region :=
  if size.isEmpty then []
  else
    let clipped := Region.intersectedRects damage ⟨0, 0, size.w, size.h⟩
    if Region.isEmpty clipped then fullFrameDamage size else clipped

/-- The emitFrame lambda of processPendingPackets.  Faithful to the source
order: the damage default is the full frame at the session size, computed
before any metadata size override, and the final fallback to full-frame
damage (no metadata, key frame, or empty damage) uses the possibly
overridden size. -/
def emitFrame (sessionSize : QSize) (packet : Packet)
    (metadata : Option EncodedPacketMetadata) : VideoFrame :=
  let size0 := sessionSize
  let damage0 := fullFrameDamage size0
  let size := match metadata with
    | some m => if m.hasSize && !m.size.isEmpty then m.size else size0
    | none => size0
  let pts : Option Int := match metadata with
    | some m =>
      if m.hasPresentationTimeStamp then some m.presentationTimeStamp else none
    | none => none
  let damage1 := match metadata with
    | some m => if m.hasDamage then clippedDamage m.damage size else damage0
    | none => damage0
  let damage :=
    if metadata.isNone || packet.isKeyFrame || Region.isEmpty damage1 then
      fullFrameDamage size
    else damage1
  ⟨packet.data, packet.isKeyFrame, size, damage, pts⟩

/-- The pairing state of a session.  lastMetadataMissLog is the steady
clock value of the last starvation log in milliseconds, with 0 encoding
"never" exactly as time_since_epoch().count() == 0 does in the source. -/
structure PairerState where
  pendingFrameMetadata : List EncodedPacketMetadata
  pendingPackets : List PendingEncodedPacket
  metadataSignalAvailable : Bool
  metadataSeen : Bool
  lastMetadataMissLog : Int
  sessionSize : QSize
deriving DecidableEq

/-- The frames emitted by one processPendingPackets call, the times at
which the starvation log fired during it, and the state it leaves. -/
structure PairerResult where
  frames : List VideoFrame
  logTimes : List Int
  state : PairerState
deriving DecidableEq

/-- The drain loop of processPendingPackets, with explicit fuel so that it
is structurally recursive; every continuing iteration dequeues one packet,
so fuel equal to the packet-queue length always suffices.  The steady-clock
reads within one call are modelled as the single instant now. -/
def processLoop : Nat → Int → PairerState → PairerResult
  | 0, _, s => ⟨[], [], s⟩
  | fuel + 1, now, s =>
    match s.pendingPackets with
    | [] => ⟨[], [], s⟩
    | pendingPacket :: restPackets =>
      match s.pendingFrameMetadata with
      | metadata :: restMetadata =>
        let frame := emitFrame s.sessionSize pendingPacket.packet (some metadata)
        let r := processLoop fuel now
          {s with
            pendingPackets := restPackets
            pendingFrameMetadata := restMetadata}
        ⟨frame :: r.frames, r.logTimes, r.state⟩
      | [] =>
        if !s.metadataSignalAvailable || !s.metadataSeen ||
            pendingPacket.packet.isKeyFrame then
          let frame := emitFrame s.sessionSize pendingPacket.packet none
          let r := processLoop fuel now {s with pendingPackets := restPackets}
          ⟨frame :: r.frames, r.logTimes, r.state⟩
        else
          let waitedTooLong :=
            decide (now - pendingPacket.queuedAt ≥ MetadataPairWaitBudget)
          let queueTooDeep :=
            decide (s.pendingPackets.length > MaxPendingPacketsWithoutMetadata)
          if waitedTooLong || queueTooDeep then
            let doLog := decide (s.lastMetadataMissLog = 0) ||
              decide (now - s.lastMetadataMissLog ≥ MetadataMissLogPeriod)
            let s1 := if doLog then {s with lastMetadataMissLog := now} else s
            let frame := emitFrame s1.sessionSize pendingPacket.packet none
            let r := processLoop fuel now {s1 with pendingPackets := restPackets}
            ⟨frame :: r.frames, (if doLog then [now] else []) ++ r.logTimes,
              r.state⟩
          else ⟨[], [], s⟩

def processPendingPackets (now : Int) (s : PairerState) : PairerResult :=
  processLoop s.pendingPackets.length now s

/-- onPacketReceived: enqueue the packet stamped with the current steady
clock, then drain. -/
def onPacketReceived (now : Int) (s : PairerState) (packet : Packet) :
    PairerResult :=
  processPendingPackets now
    {s with pendingPackets := s.pendingPackets ++ [⟨packet, now⟩]}

/-! ## Concrete sample inputs used by witnesses and counterexamples -/

def exClock : WallClock := ⟨0, 0, 0, 0⟩

/-- A submission state just after capability confirmation with the initial
reset already performed. -/
def exGfxState : GfxState :=
  ⟨true, true, false, 2, ⟨1, ⟨1920, 1080⟩⟩, 0, 0, [], 0, []⟩

/-- A full-HD frame with one 32 by 32 damage rectangle, as in scenario S3 of
the specification. -/
def exSmallDamageFrame : VideoFrame :=
  ⟨[1], false, ⟨1920, 1080⟩, [⟨0, 0, 32, 32⟩], none⟩

def exEmptySizeFrame : VideoFrame := ⟨[1], false, ⟨0, 0⟩, [], none⟩

def exKeyFrame : VideoFrame := ⟨[2], true, ⟨100, 50⟩, [⟨0, 0, 32, 32⟩], none⟩

def exFrameA : VideoFrame := ⟨[0], false, ⟨1, 1⟩, [], none⟩

def exFrameB : VideoFrame := ⟨[1], false, ⟨1, 1⟩, [], none⟩

def exPacket (i : Nat) : Packet := ⟨[i], false⟩

def exKeyPacket : Packet := ⟨[9], true⟩

def exMetadata : EncodedPacketMetadata :=
  ⟨⟨64, 64⟩, [⟨0, 0, 8, 8⟩], 7, true, true, true⟩

def exStarvedPackets : List PendingEncodedPacket :=
  [⟨exPacket 0, 0⟩, ⟨exPacket 1, 0⟩, ⟨exPacket 2, 0⟩, ⟨exPacket 3, 0⟩,
    ⟨exPacket 4, 0⟩, ⟨exPacket 5, 0⟩, ⟨exPacket 6, 0⟩, ⟨exPacket 7, 0⟩]

/-- Eight queued packets, no metadata yet, channel available and metadata
seen before: scenario S4 just before the ninth packet arrives. -/
def exStarvedState : PairerState :=
  ⟨[], exStarvedPackets, true, true, 0, ⟨100, 100⟩⟩

def exFrameRateState : FrameRateState := ⟨[], 0, 60, 120, 1⟩

/-! ## General helper lemmas -/

theorem mem_insertPending_self (l : List Nat) (i : Nat) : i ∈ insertPending l i := by
  unfold insertPending
  split
  · assumption
  · exact List.mem_cons_self i l

theorem mem_insertPending_of_mem {l : List Nat} {j : Nat} (i : Nat) (h : j ∈ l) :
    j ∈ insertPending l i := by
  unfold insertPending
  split
  · exact h
  · exact List.mem_cons_of_mem i h

theorem trimQueue_eq_drop :
    ∀ l : List VideoFrame, trimQueue l = l.drop (l.length - MaxQueuedFrames) := by
  intro l
  induction l with
  | nil => rfl
  | cons f rest ih =>
    unfold trimQueue
    split
    · rename_i hlen
      rw [ih]
      have hge : MaxQueuedFrames ≤ rest.length := by
        simpa [MaxQueuedFrames] using Nat.lt_of_succ_lt_succ (Nat.lt_of_lt_of_le hlen (by simp))
      have : (f :: rest).length - MaxQueuedFrames = (rest.length - MaxQueuedFrames) + 1 := by
        simp only [List.length_cons]
        omega
      rw [this, List.drop_succ_cons]
    · rename_i hlen
      have : (f :: rest).length - MaxQueuedFrames = 0 := by
        simp only [List.length_cons]
        simp only [List.length_cons, gt_iff_lt, not_lt] at hlen
        omega
      rw [this, List.drop_zero]

theorem drainLoop_id : ∀ (fuel : Nat) (l : List VideoFrame), l.length ≤ fuel → drainLoop fuel l = l := by
  intro fuel
  induction fuel with
  | zero =>
    intro l hl
    rw [Nat.le_zero, List.length_eq_zero] at hl
    subst hl
    rfl
  | succ n ih =>
    intro l hl
    match l with
    | [] => rfl
    | f :: rest =>
      simp only [drainLoop, takeNextFrame]
      rw [ih rest (by simpa [Nat.succ_le_succ_iff] using hl)]

theorem decodeCaps_version (set : RDPGFX_CAPSET) : (decodeCaps set).version = set.version := by
  unfold decodeCaps
  split
  · rfl
  · split
    · rfl
    · split
      · split
        · rfl
        · rfl
      · rfl

theorem decodeCaps_capSet (set : RDPGFX_CAPSET) : (decodeCaps set).capSet = set := by
  unfold decodeCaps
  split
  · rfl
  · split
    · rfl
    · split
      · split
        · rfl
        · rfl
      · rfl

theorem maxFold_spec :
    ∀ (l : List RDPGFX_CAPSET) (acc : RdpCapsInformation),
      (acc.version ≤ (List.foldl (fun b t => maxByVersionStep b (decodeCaps t)) acc l).version ∧
        ∀ c ∈ l, c.version ≤ (List.foldl (fun b t => maxByVersionStep b (decodeCaps t)) acc l).version) ∧
      ((List.foldl (fun b t => maxByVersionStep b (decodeCaps t)) acc l) = acc ∨
        ∃ pre chosen post,
          l = pre ++ chosen :: post ∧
          (List.foldl (fun b t => maxByVersionStep b (decodeCaps t)) acc l) = decodeCaps chosen ∧
          acc.version < chosen.version ∧
          ∀ c ∈ pre, c.version < chosen.version) := by
  intro l
  induction l with
  | nil =>
    intro acc
    exact ⟨⟨le_refl _, by intro c hc; cases hc⟩, Or.inl rfl⟩
  | cons c t ih =>
    intro acc
    rw [List.foldl_cons]
    have hstep : maxByVersionStep acc (decodeCaps c) =
        if acc.version < c.version then decodeCaps c else acc := by
      unfold maxByVersionStep
      rw [decodeCaps_version]
    by_cases hlt : acc.version < c.version
    · rw [hstep, if_pos hlt]
      obtain ⟨⟨hb1, hb2⟩, hd⟩ := ih (decodeCaps c)
      rw [decodeCaps_version] at hb1
      refine ⟨⟨le_trans (le_of_lt hlt) hb1, ?_⟩, ?_⟩
      · intro x hx
        rcases List.mem_cons.mp hx with hx | hx
        · subst hx; exact hb1
        · exact hb2 x hx
      · right
        rcases hd with hd | ⟨pre, chosen, post, htl, hR, haccl, hpre⟩
        · exact ⟨[], c, t, rfl, hd, hlt, by intro x hx; cases hx⟩
        · rw [decodeCaps_version] at haccl
          refine ⟨c :: pre, chosen, post, by rw [htl]; rfl, hR, lt_trans hlt haccl, ?_⟩
          intro x hx
          rcases List.mem_cons.mp hx with hx | hx
          · subst hx; exact haccl
          · exact hpre x hx
    · rw [hstep, if_neg hlt]
      obtain ⟨⟨hb1, hb2⟩, hd⟩ := ih acc
      have hcle : c.version ≤ acc.version := le_of_not_lt hlt
      refine ⟨⟨hb1, ?_⟩, ?_⟩
      · intro x hx
        rcases List.mem_cons.mp hx with hx | hx
        · subst hx; exact le_trans hcle hb1
        · exact hb2 x hx
      · rcases hd with hd | ⟨pre, chosen, post, htl, hR, haccl, hpre⟩
        · exact Or.inl hd
        · right
          refine ⟨c :: pre, chosen, post, by rw [htl]; rfl, hR, haccl, ?_⟩
          intro x hx
          rcases List.mem_cons.mp hx with hx | hx
          · subst hx; exact lt_of_le_of_lt hcle haccl
          · exact hpre x hx

/-! ## Claim C1 -/

/-- Claim C1, counterexample: a CAPS_ADVERTISE carrying only the set
{version = RDPGFX_CAPVERSION_10, flags = 0} is NOT answered with a
CAPS_CONFIRM echoing that set, contrary to the claim. -/
theorem capsAdvertise_v10_happy_counter :
    onCapsAdvertise [⟨RDPGFX_CAPVERSION_10, 0⟩] ≠
      CapsOutcome.confirmed ⟨RDPGFX_CAPVERSION_10, 0⟩ := by decide

/-- Claim C1, amended: with local AVC444 encoding unavailable, a
CAPS_ADVERTISE containing exactly the capability set
{version = RDPGFX_CAPVERSION_10, flags = 0} decodes to AVC supported but
YUV420 not supported, so no advertised set passes the combined check and
onCapsAdvertise closes the connection with VideoInitFailed (outcome
rejected); no CAPS_CONFIRM is sent and capsConfirmed stays false. -/
theorem capsAdvertise_v10_only_rejected :
    LocalAvc444EncodingAvailable = false ∧
    (decodeCaps ⟨RDPGFX_CAPVERSION_10, 0⟩).avcSupported = true ∧
    (decodeCaps ⟨RDPGFX_CAPVERSION_10, 0⟩).yuv420Supported = false ∧
    onCapsAdvertise [⟨RDPGFX_CAPVERSION_10, 0⟩] = CapsOutcome.rejected := by decide

/-! ## Claim C2 -/

/-- Claim C2, counterexample: advertising version 104 with AVC_DISABLED
together with version 81 with AVC420_ENABLED passes the support check (via
the version-81 set), yet the echoed set is the version-104 one, which does
not support the chosen codec; the claim that the echoed set supports the
codec and is the highest-version set among the supporting ones is false. -/
theorem capsConfirm_nonsupporting_counter :
    onCapsAdvertise
        [⟨RDPGFX_CAPVERSION_104, RDPGFX_CAPS_FLAG_AVC_DISABLED⟩,
          ⟨RDPGFX_CAPVERSION_81, RDPGFX_CAPS_FLAG_AVC420_ENABLED⟩] =
      CapsOutcome.confirmed ⟨RDPGFX_CAPVERSION_104, RDPGFX_CAPS_FLAG_AVC_DISABLED⟩ ∧
    (decodeCaps ⟨RDPGFX_CAPVERSION_104, RDPGFX_CAPS_FLAG_AVC_DISABLED⟩).avcSupported = false ∧
    supportsAvcYuv (decodeCaps ⟨RDPGFX_CAPVERSION_81, RDPGFX_CAPS_FLAG_AVC420_ENABLED⟩) = true := by
  decide

/-- Claim C2, amended: when no advertised set supports AVC together with
YUV420 the connection is closed with VideoInitFailed; when some set does,
the set echoed in CAPS_CONFIRM is the first set with the highest version
among ALL advertised sets (support is not consulted in the selection, and
ties are broken by list order). -/
theorem capsConfirm_first_max_version (capsSets : List RDPGFX_CAPSET) :
    ((capsSets.map decodeCaps).any supportsAvcYuv = false →
      onCapsAdvertise capsSets = CapsOutcome.rejected) ∧
    ((capsSets.map decodeCaps).any supportsAvcYuv = true →
      ∃ pre chosen post,
        capsSets = pre ++ chosen :: post ∧
        onCapsAdvertise capsSets = CapsOutcome.confirmed chosen ∧
        (∀ t ∈ pre, t.version < chosen.version) ∧
        (∀ t ∈ post, t.version ≤ chosen.version)) := by
  constructor
  · intro h
    simp only [onCapsAdvertise, h]
    rfl
  · intro h
    match capsSets with
    | [] => simp at h
    | c :: crest =>
      have hunf : onCapsAdvertise (c :: crest) =
          CapsOutcome.confirmed
            ((List.foldl (fun b t => maxByVersionStep b (decodeCaps t))
              (decodeCaps c) crest).capSet) := by
        simp only [onCapsAdvertise, List.map_cons]
        simp only [List.map_cons] at h
        simp [h, List.foldl_map]
      obtain ⟨⟨hb1, hb2⟩, hd⟩ := maxFold_spec crest (decodeCaps c)
      rcases hd with hd | ⟨pre, chosen, post, htl, hR, haccl, hpre⟩
      · refine ⟨[], c, crest, rfl, ?_, ?_, ?_⟩
        · rw [hunf, hd, decodeCaps_capSet]
        · intro t ht
          cases ht
        · intro t ht
          have := hb2 t ht
          rw [hd, decodeCaps_version] at this
          exact this
      · rw [decodeCaps_version] at haccl
        refine ⟨c :: pre, chosen, post, by rw [htl]; rfl, ?_, ?_, ?_⟩
        · rw [hunf, hR, decodeCaps_capSet]
        · intro t ht
          rcases List.mem_cons.mp ht with ht | ht
          · subst ht; exact haccl
          · exact hpre t ht
        · intro t ht
          have hmem : t ∈ crest := by
            rw [htl]
            exact List.mem_append_right pre (List.mem_cons_of_mem chosen ht)
          have := hb2 t hmem
          rw [hR, decodeCaps_version] at this
          exact this

/-! ## Claim C3 -/

/-- Claim C3, counterexample: with two distinct queued frames the
submission thread pops the FRONT (oldest) frame and keeps the newer frame
queued; the popped frame is not the most recently queued one, and the
older entries are not discarded. -/
theorem takeNextFrame_not_newest :
    takeNextFrame [exFrameA, exFrameB] = some (exFrameA, [exFrameB]) ∧
    [exFrameA, exFrameB].getLast? = some exFrameB ∧
    exFrameA ≠ exFrameB := by decide

/-- Claim C3, amended: the submission thread pops the oldest queued frame
and leaves the remaining entries queued, so with no new arrivals the queued
frames reach sendFrame in FIFO arrival order; boundedness comes from the
enqueue side instead, where queueFrame appends and then drops the oldest
entries while more than MaxQueuedFrames (4 in the source) are queued. -/
theorem frameQueue_fifo_bounded (streaming enabled : Bool)
    (q : List VideoFrame) (f : VideoFrame)
    (hs : streaming = true) (he : enabled = true) :
    takeNextFrame (f :: q) = some (f, q) ∧
    takeNextFrame ([] : List VideoFrame) = none ∧
    drainOrder q = q ∧
    queueFrame streaming enabled q f =
      (q ++ [f]).drop (q.length + 1 - MaxQueuedFrames) ∧
    (queueFrame streaming enabled q f).length ≤ MaxQueuedFrames := by
  subst hs
  subst he
  have hqf : queueFrame true true q f =
      (q ++ [f]).drop (q.length + 1 - MaxQueuedFrames) := by
    show trimQueue (q ++ [f]) = (q ++ [f]).drop (q.length + 1 - MaxQueuedFrames)
    rw [trimQueue_eq_drop]
    simp
  refine ⟨rfl, rfl, drainLoop_id _ _ (le_refl _), hqf, ?_⟩
  rw [hqf, List.length_drop]
  simp only [List.length_append, List.length_singleton]
  omega

/-- Claim C3, witness for the amended statement: a concrete two-frame
queue. -/
theorem frameQueue_fifo_bounded_witness :
    takeNextFrame (exFrameA :: [exFrameB]) = some (exFrameA, [exFrameB]) ∧
    takeNextFrame ([] : List VideoFrame) = none ∧
    drainOrder [exFrameB] = [exFrameB] ∧
    queueFrame true true [exFrameB] exFrameA =
      ([exFrameB] ++ [exFrameA]).drop ([exFrameB].length + 1 - MaxQueuedFrames) ∧
    (queueFrame true true [exFrameB] exFrameA).length ≤ MaxQueuedFrames :=
  frameQueue_fifo_bounded true true [exFrameB] exFrameA rfl rfl

/-! ## Claim C5 -/

theorem foldl_estimate_sum_bounds :
    ∀ (l : List FrameRateEstimate) (acc : Int),
      (∀ e ∈ l, 0 ≤ e.estimate ∧ e.estimate ≤ 120) →
      acc ≤ l.foldl (fun a e => a + e.estimate) acc ∧
      l.foldl (fun a e => a + e.estimate) acc ≤ acc + 120 * l.length := by
  intro l
  induction l with
  | nil =>
    intro acc _
    simp
  | cons e t ih =>
    intro acc hb
    have he := hb e (List.mem_cons_self e t)
    have ht := fun x hx => hb x (List.mem_cons_of_mem e hx)
    obtain ⟨h1, h2⟩ := ih (acc + e.estimate) ht
    rw [List.foldl_cons]
    constructor
    · exact le_trans (by omega) h1
    · refine le_trans h2 ?_
      simp only [List.length_cons]
      push_cast
      nlinarith [he.1, he.2]

/-- Claim C5, counterexample: a single RTT sample of 1000 ms with frame
delay 1 makes the recomputed requested frame rate 1, which is below the
claimed lower clamp of 5. -/
theorem updateRequestedFrameRate_below_five :
    (updateRequestedFrameRate 2000 1000 exFrameRateState).requestedFrameRate = 1 ∧
    ¬(5 ≤ (updateRequestedFrameRate 2000 1000 exFrameRateState).requestedFrameRate) := by
  decide

/-- Claim C5, amended: an invocation inside the one-second averaging window
leaves the requested frame rate unchanged; an invocation that recomputes it
(window elapsed) stores a value in [1, 60] (each ring estimate is at most
the maximum frame rate 120 and the stored value is
max 1 (average halved)), so the requested rate can drop to 1, below the
claimed clamp of 5, and after a recomputation never exceeds 60. -/
theorem updateRequestedFrameRate_range (now rttMs : Int) (s : FrameRateState)
    (hmax : s.maximumFrameRate = 120)
    (hinv : ∀ e ∈ s.frameRateEstimates, 0 ≤ e.estimate ∧ e.estimate ≤ 120) :
    (now - s.lastFrameRateEstimation < FrameRateEstimateAveragePeriod →
      (updateRequestedFrameRate now rttMs s).requestedFrameRate =
        s.requestedFrameRate) ∧
    (FrameRateEstimateAveragePeriod ≤ now - s.lastFrameRateEstimation →
      1 ≤ (updateRequestedFrameRate now rttMs s).requestedFrameRate ∧
      (updateRequestedFrameRate now rttMs s).requestedFrameRate ≤ 60) := by
  constructor
  · intro h
    unfold updateRequestedFrameRate
    rw [if_pos h]
  · intro h
    unfold updateRequestedFrameRate
    rw [if_neg (not_lt.mpr h)]
    set est : FrameRateEstimate :=
      ⟨now, min (Int.tdiv 1000 (max rttMs 1 * max s.frameDelay 1)) s.maximumFrameRate⟩
      with hest
    set kept : List FrameRateEstimate :=
      (s.frameRateEstimates ++ [est]).filter
        (fun e => !(decide (e.timeStamp - now > FrameRateEstimateAveragePeriod)))
      with hkept
    have hDpos : (0 : Int) < max rttMs 1 * max s.frameDelay 1 := by
      have h1 : (1 : Int) ≤ max rttMs 1 := le_max_right _ _
      have h2 : (1 : Int) ≤ max s.frameDelay 1 := le_max_right _ _
      nlinarith
    have hestb : 0 ≤ est.estimate ∧ est.estimate ≤ 120 := by
      rw [hest]
      constructor
      · exact le_min (Int.tdiv_nonneg (by norm_num) (le_of_lt hDpos)) (by rw [hmax]; norm_num)
      · rw [hmax]
        exact min_le_right _ _
    have hkb : ∀ e ∈ kept, 0 ≤ e.estimate ∧ e.estimate ≤ 120 := by
      intro e hek
      have hmem := List.mem_of_mem_filter hek
      rcases List.mem_append.mp hmem with hmem | hmem
      · exact hinv e hmem
      · rw [List.mem_singleton.mp hmem]
        exact hestb
    obtain ⟨hs1, hs2⟩ :=
      foldl_estimate_sum_bounds kept 0 hkb
    set sum : Int := kept.foldl (fun a e => a + e.estimate) 0 with hsum
    have hsum0 : 0 ≤ sum := hs1
    have hsumU : sum ≤ 120 * kept.length := by simpa using hs2
    have havg0 : 0 ≤ Int.tdiv sum (kept.length : Int) :=
      Int.tdiv_nonneg hsum0 (by positivity)
    have havgU : Int.tdiv sum (kept.length : Int) ≤ 120 := by
      rw [Int.tdiv_eq_ediv hsum0 (by positivity)]
      rcases Nat.eq_zero_or_pos kept.length with hl | hl
      · rw [hl]
        norm_num
      · have hlpos : (0 : Int) < (kept.length : Int) := by exact_mod_cast hl
        calc sum / (kept.length : Int) ≤ 120 * (kept.length : Int) / (kept.length : Int) :=
              Int.ediv_le_ediv hlpos hsumU
          _ = 120 := Int.mul_ediv_cancel 120 (ne_of_gt hlpos)
    constructor
    · exact le_max_left _ _
    · refine max_le (by norm_num) ?_
      have : Int.tdiv sum (kept.length : Int) / 2 ≤ 120 / 2 :=
        Int.ediv_le_ediv (by norm_num) havgU
      simpa using this

/-- Claim C5, witness for the amended statement: both the unchanged branch
(window not yet elapsed) and the recompute branch on a concrete state. -/
theorem updateRequestedFrameRate_range_witness :
    ((100 : Int) - exFrameRateState.lastFrameRateEstimation <
        FrameRateEstimateAveragePeriod →
      (updateRequestedFrameRate 100 1 exFrameRateState).requestedFrameRate =
        exFrameRateState.requestedFrameRate) ∧
    (FrameRateEstimateAveragePeriod ≤
        (100 : Int) - exFrameRateState.lastFrameRateEstimation →
      1 ≤ (updateRequestedFrameRate 100 1 exFrameRateState).requestedFrameRate ∧
      (updateRequestedFrameRate 100 1 exFrameRateState).requestedFrameRate ≤ 60) :=
  updateRequestedFrameRate_range 100 1 exFrameRateState rfl
    (by intro e he; cases he)

/-! ## Claim C6 -/

theorem rdpRect_wf_aux (rect : QRect) : rdpRectWellFormed (toRdpRect rect) = true := by
  unfold rdpRectWellFormed toRdpRect cppClamp MaxRdpCoordinate
  simp only [Bool.and_eq_true, Bool.or_eq_true, decide_eq_true_eq]
  split <;> split <;> omega

theorem toDamageRects_wf_aux (frame : VideoFrame) :
    (toDamageRects frame).all rdpRectWellFormed = true := by
  rw [List.all_eq_true]
  intro x hx
  simp only [toDamageRects] at hx
  split at hx
  · cases hx
  · split at hx
    · rw [List.mem_singleton] at hx
      rw [hx]
      exact rdpRect_wf_aux _
    · split at hx
      · rw [List.mem_singleton] at hx
        rw [hx]
        exact rdpRect_wf_aux _
      · split at hx
        · rw [List.mem_singleton] at hx
          rw [hx]
          exact rdpRect_wf_aux _
        · split at hx
          · rw [List.mem_singleton] at hx
            rw [hx]
            exact rdpRect_wf_aux _
          · obtain ⟨a, _, heq⟩ := List.mem_filterMap.mp hx
            split at heq
            · cases heq
            · cases heq
              exact rdpRect_wf_aux _

/-- Claim C6, counterexample: the rectangle with origin 65535 clamps both
left and right to 65535; the one-pixel expansion is itself bounded by
65535, so the emitted RECTANGLE_16 has left = right and the claimed strict
ordering left < right fails. -/
theorem toRdpRect_degenerate_at_max :
    (toRdpRect ⟨65535, 0, 1, 1⟩).left = 65535 ∧
    (toRdpRect ⟨65535, 0, 1, 1⟩).right = 65535 ∧
    ¬((toRdpRect ⟨65535, 0, 1, 1⟩).left < (toRdpRect ⟨65535, 0, 1, 1⟩).right) := by
  decide

/-- Claim C6, amended: for every input rectangle the RECTANGLE_16 produced
by toRdpRect has all four coordinates in [0, 65535] with left at most right
and top at most bottom, and the ordering is strict whenever the left
(respectively top) edge is below 65535 - degenerate extents are expanded by
one pixel but the expansion saturates at 65535, so strictness can fail only
there.  Every rectangle emitted by toDamageRects satisfies the same
well-formedness predicate. -/
theorem toRdpRect_wellFormed :
    (∀ rect : QRect, rdpRectWellFormed (toRdpRect rect) = true) ∧
    (∀ frame : VideoFrame, (toDamageRects frame).all rdpRectWellFormed = true) :=
  ⟨rdpRect_wf_aux, toDamageRects_wf_aux⟩

/-! ## Claim C7 -/

theorem mergeWithFirst_length {a : QRect} :
    ∀ {l : List QRect} {j : QRect} {l2 : List QRect},
      mergeWithFirst a l = some (j, l2) → l2.length + 1 = l.length := by
  intro l
  induction l with
  | nil =>
    intro j l2 h
    cases h
  | cons b t ih =>
    intro j l2 h
    simp only [mergeWithFirst] at h
    split at h
    · cases h
      rfl
    · cases hm : mergeWithFirst a t with
      | none =>
        rw [hm] at h
        cases h
      | some p =>
        rw [hm] at h
        cases h
        have := ih hm
        simp only [List.length_cons]
        omega

theorem findMerge_length :
    ∀ {l l2 : List QRect}, findMerge l = some l2 → l2.length + 1 = l.length := by
  intro l
  induction l with
  | nil =>
    intro l2 h
    cases h
  | cons a rest ih =>
    intro l2 h
    simp only [findMerge] at h
    cases hm : mergeWithFirst a rest with
    | some p =>
      rw [hm] at h
      cases h
      have := mergeWithFirst_length hm
      simp only [List.length_cons]
      omega
    | none =>
      rw [hm] at h
      cases hf : findMerge rest with
      | none =>
        rw [hf] at h
        cases h
      | some rest2 =>
        rw [hf] at h
        cases h
        have := ih hf
        simp only [List.length_cons]
        omega

theorem coalesceFuel_length_le :
    ∀ (fuel : Nat) (l : List QRect), (coalesceFuel fuel l).length ≤ l.length := by
  intro fuel
  induction fuel with
  | zero =>
    intro l
    exact le_refl _
  | succ n ih =>
    intro l
    simp only [coalesceFuel]
    split
    · cases hf : findMerge l with
      | none => exact le_refl _
      | some l2 =>
        have := findMerge_length hf
        exact le_trans (ih l2) (by omega)
    · exact le_refl _

theorem coalesce_length_le (l : List QRect) : (coalesce l).length ≤ l.length :=
  coalesceFuel_length_le l.length l

/-- Claim C7: toDamageRects never returns more than MaxDamageRectCount
(128) rectangles - the clipped damage list is replaced by the single
full-frame rectangle when it exceeds 128 before coalescing - and whenever
the greedy coalescing loop stopped at or below MaxCoalescedDamageRects
(64), the final list also stays at or below 64. -/
theorem toDamageRects_bounded (frame : VideoFrame) :
    (toDamageRects frame).length ≤ MaxDamageRectCount ∧
    ((coalesce (clippedDamageRects frame)).length ≤ MaxCoalescedDamageRects →
      (toDamageRects frame).length ≤ MaxCoalescedDamageRects) := by
  constructor
  · simp only [toDamageRects]
    split
    · simp [MaxDamageRectCount]
    · split
      · simp [MaxDamageRectCount]
      · split
        · simp [MaxDamageRectCount]
        · split
          · simp [MaxDamageRectCount]
          · split
            · simp [MaxDamageRectCount]
            · rename_i hcoal _
              rw [not_lt] at hcoal
              exact le_trans (List.length_filterMap_le _ _) hcoal
  · intro h
    simp only [toDamageRects]
    split
    · simp [MaxCoalescedDamageRects]
    · split
      · simp [MaxCoalescedDamageRects]
      · split
        · simp [MaxCoalescedDamageRects]
        · split
          · simp [MaxCoalescedDamageRects]
          · split
            · simp [MaxCoalescedDamageRects]
            · exact le_trans (List.length_filterMap_le _ _) h

/-- Claim C7, witness: the single-rectangle frame of scenario S3; the
coalescing loop trivially stops below the bound and the emitted list stays
below both bounds. -/
theorem toDamageRects_bounded_witness :
    (coalesce (clippedDamageRects exSmallDamageFrame)).length ≤
      MaxCoalescedDamageRects ∧
    (toDamageRects exSmallDamageFrame).length ≤ MaxDamageRectCount ∧
    (toDamageRects exSmallDamageFrame).length ≤ MaxCoalescedDamageRects :=
  ⟨by decide, (toDamageRects_bounded exSmallDamageFrame).1,
    (toDamageRects_bounded exSmallDamageFrame).2 (by decide)⟩

/-! ## Claim C9 -/

/-- Claim C9: a key-frame packet always yields a frame whose damage is the
full-frame region at the frame size, regardless of the paired metadata, and
toDamageRects of a key frame with non-empty size is exactly the single
full-frame rectangle. -/
theorem keyframe_full_damage (sessionSize : QSize) (packet : Packet)
    (metadata : Option EncodedPacketMetadata) (frame : VideoFrame)
    (hpk : packet.isKeyFrame = true)
    (hfk : frame.isKeyFrame = true)
    (hfs : frame.size.isEmpty = false) :
    (emitFrame sessionSize packet metadata).damage =
      fullFrameDamage (emitFrame sessionSize packet metadata).size ∧
    toDamageRects frame = [toRdpRect ⟨0, 0, frame.size.w, frame.size.h⟩] := by
  constructor
  · simp only [emitFrame, hpk]
    simp
  · simp only [toDamageRects, hfs, hfk]
    simp

/-- Claim C9, witness: a key packet paired with concrete metadata carrying
damage, and a key frame of size 100 by 50. -/
theorem keyframe_full_damage_witness :
    (emitFrame ⟨100, 100⟩ exKeyPacket (some exMetadata)).damage =
      fullFrameDamage (emitFrame ⟨100, 100⟩ exKeyPacket (some exMetadata)).size ∧
    toDamageRects exKeyFrame =
      [toRdpRect ⟨0, 0, exKeyFrame.size.w, exKeyFrame.size.h⟩] :=
  keyframe_full_damage ⟨100, 100⟩ exKeyPacket (some exMetadata) exKeyFrame
    (by decide) (by decide) (by decide)

/-! ## Claim C4 -/

/-- Claim C4, counterexample: a non-key frame with a single 32 by 32 damage
rectangle on a 1920 by 1080 frame (coverage about 0.0005, well under 0.03)
is submitted with quant entry {qp = 22, quality = 100}, not the claimed
{qp = 18, quality = 100}. -/
theorem sendFrame_small_rect_qp_counter :
    surfaceQuantLists (sendFrame exClock exGfxState exSmallDamageFrame).2 =
      [[⟨22, 0, 100⟩]] ∧
    exSmallDamageFrame.isKeyFrame = false ∧
    (32 * 32) * 100 ≤ 3 * (1920 * 1080) ∧
    (22 : Nat) ≠ 18 := by decide

/-- Claim C4, amended: sendFrame assigns the constant quant entry
{qp = 22, p = 0, quality = 100} to every damage rectangle of every
submitted frame; no coverage-, activity- or refinement-dependent policy
exists in the source. -/
theorem sendFrame_constant_quant (c : WallClock) (s : GfxState)
    (frame : VideoFrame)
    (hOpen : s.gfxOpen = true) (hCaps : s.capsConfirmed = true)
    (hData : frame.data.length ≠ 0)
    (hRects : toDamageRects frame ≠ []) :
    surfaceQuantLists (sendFrame c s frame).2 =
      [List.replicate (toDamageRects frame).length ⟨22, 0, 100⟩] := by
  have hg : ¬((!s.gfxOpen || !s.capsConfirmed) = true) := by
    rw [hOpen, hCaps]
    decide
  by_cases hp : s.pendingReset
  · simp only [sendFrame, if_neg hg, if_neg hData, hp, if_true, performReset]
    split
    · rename_i htd
      exact absurd htd hRects
    · rename_i r0 tail htd
      rw [htd]
      simp [surfaceQuantLists]
  · simp only [sendFrame, if_neg hg, if_neg hData, hp, if_false]
    split
    · rename_i htd
      exact absurd htd hRects
    · rename_i r0 tail htd
      rw [htd]
      simp [surfaceQuantLists]

/-- Claim C4, witness for the amended statement: the scenario-S3 frame
receives the constant quant entry for its single rectangle. -/
theorem sendFrame_constant_quant_witness :
    surfaceQuantLists (sendFrame exClock exGfxState exSmallDamageFrame).2 =
      [List.replicate (toDamageRects exSmallDamageFrame).length ⟨22, 0, 100⟩] :=
  sendFrame_constant_quant exClock exGfxState exSmallDamageFrame rfl rfl
    (by decide) (by decide)

/-! ## Claim C10 -/

theorem toDamageRects_empty_size {frame : VideoFrame}
    (h : frame.size.isEmpty = true) : toDamageRects frame = [] := by
  simp only [toDamageRects, h, if_true]

/-- State effects of one sendFrame call, over arbitrary inputs: the
allocation counter moves by at most one, pending frame ids are never
dropped, and the sent-id log either stays put or gains exactly the id
allocated from the incoming counter. -/
theorem sendFrame_effects (c : WallClock) (s : GfxState) (frame : VideoFrame) :
    s.allocCount ≤ (sendFrame c s frame).1.allocCount ∧
    (sendFrame c s frame).1.allocCount ≤ s.allocCount + 1 ∧
    (∀ i, i ∈ s.pendingFrames → i ∈ (sendFrame c s frame).1.pendingFrames) ∧
    ((sendFrame c s frame).1.sentFrameIds = s.sentFrameIds ∨
      (sendFrame c s frame).1.sentFrameIds =
        (s.allocCount % 4294967296) :: s.sentFrameIds) := by
  by_cases hg : (!s.gfxOpen || !s.capsConfirmed) = true
  · have hsf : sendFrame c s frame = (s, []) := by
      simp only [sendFrame, if_pos hg]
    rw [hsf]
    dsimp only
    exact ⟨le_refl _, by omega, fun i h => h, Or.inl rfl⟩
  · by_cases hd : frame.data.length = 0
    · have hsf : sendFrame c s frame = (s, []) := by
        simp only [sendFrame, if_neg hg, if_pos hd]
      rw [hsf]
      dsimp only
      exact ⟨le_refl _, by omega, fun i h => h, Or.inl rfl⟩
    · by_cases hp : s.pendingReset = true
      · simp only [sendFrame, if_neg hg, if_neg hd, hp, if_true, performReset]
        split
        · refine ⟨?_, ?_, ?_, ?_⟩ <;> dsimp only
          · omega
          · omega
          · exact fun i h => mem_insertPending_of_mem _ h
          · exact Or.inl rfl
        · refine ⟨?_, ?_, ?_, ?_⟩ <;> dsimp only
          · omega
          · omega
          · exact fun i h => mem_insertPending_of_mem _ h
          · exact Or.inr rfl
      · simp only [sendFrame, if_neg hg, if_neg hd, if_neg hp]
        split
        · refine ⟨?_, ?_, ?_, ?_⟩ <;> dsimp only
          · omega
          · omega
          · exact fun i h => mem_insertPending_of_mem _ h
          · exact Or.inl rfl
        · refine ⟨?_, ?_, ?_, ?_⟩ <;> dsimp only
          · omega
          · omega
          · exact fun i h => mem_insertPending_of_mem _ h
          · exact Or.inr rfl

theorem mod_ne_of_between {F A n : Nat} (h1 : F < A) (h2 : A < F + n) :
    A % n ≠ F % n := by
  intro h
  have hdvd : n ∣ A - F := (Nat.modEq_iff_dvd' (le_of_lt h1)).mp h.symm
  have hle : n ≤ A - F := Nat.le_of_dvd (by omega) hdvd
  omega

/-- Once a frame id is pending but absent from the wire log, it stays that
way along every wire-consistent trace whose sends cannot wrap the 32-bit
counter back onto it. -/
theorem leak_preserved (fid F : Nat) :
    ∀ (es : List StreamEvent) (s : GfxState),
      fid = F % 4294967296 →
      F < s.allocCount →
      s.allocCount + countSends es ≤ F + 4294967296 →
      fid ∈ s.pendingFrames →
      fid ∉ s.sentFrameIds →
      acksRefsSent s es = true →
      fid ∈ (runEvents s es).pendingFrames ∧
        fid ∉ (runEvents s es).sentFrameIds := by
  intro es
  induction es with
  | nil =>
    intro s _ _ _ hpend hsent _
    exact ⟨hpend, hsent⟩
  | cons e rest ih =>
    intro s hfid hlt hbound hpend hsent hacks
    have hrun : runEvents s (e :: rest) = runEvents (stepEvent s e) rest := rfl
    rw [hrun]
    cases e with
    | send c frame =>
      simp only [acksRefsSent, Bool.true_and] at hacks
      have hack2 := hacks
      obtain ⟨he1, he2, he3, he4⟩ := sendFrame_effects c s frame
      have hcnt : countSends (.send c frame :: rest) = countSends rest + 1 := rfl
      refine ih (stepEvent s (.send c frame)) hfid ?_ ?_ ?_ ?_ hack2
      · exact lt_of_lt_of_le hlt he1
      · rw [hcnt] at hbound
        simp only [stepEvent]
        omega
      · exact he3 fid hpend
      · rcases he4 with h4 | h4
        · simp only [stepEvent]
          rw [h4]
          exact hsent
        · simp only [stepEvent]
          rw [h4]
          intro hmem
          rcases List.mem_cons.mp hmem with hmem | hmem
          · have hne : s.allocCount % 4294967296 ≠ F % 4294967296 := by
              apply mod_ne_of_between hlt
              rw [hcnt] at hbound
              omega
            rw [hfid] at hmem
            exact hne hmem.symm
          · exact hsent hmem
    | ack a =>
      simp only [acksRefsSent, Bool.and_eq_true, decide_eq_true_eq] at hacks
      obtain ⟨hack1, hack2⟩ := hacks
      have hne : a.frameId ≠ fid := by
        intro hcontra
        rw [hcontra] at hack1
        exact hsent hack1
      refine ih (stepEvent s (.ack a)) hfid ?_ ?_ ?_ ?_ hack2
      · simp only [stepEvent, onFrameAcknowledge]
        split
        · exact hlt
        · exact hlt
      · have hcnt : countSends (.ack a :: rest) = countSends rest := rfl
        rw [hcnt] at hbound
        simp only [stepEvent, onFrameAcknowledge]
        split
        · exact hbound
        · exact hbound
      · simp only [stepEvent, onFrameAcknowledge]
        split
        · exact (List.mem_erase_of_ne (Ne.symm hne)).mpr hpend
        · exact hpend
      · simp only [stepEvent, onFrameAcknowledge]
        split
        · exact hsent
        · exact hsent

/-- Claim C10: calling sendFrame with caps confirmed, the GFX context open,
a non-empty payload and an empty frame size (so toDamageRects is empty)
bumps the frame-id counter and the encoded-frame counter, inserts the newly
allocated id into pendingFrames, emits no START_FRAME, SURFACE_COMMAND or
END_FRAME PDU, and leaves the wire log unchanged; along any subsequent
wire-consistent trace with fewer than 2^32 sends, that id is never written
to the wire and never removed by a frame acknowledge. -/
theorem sendFrame_empty_size_leak (c : WallClock) (s : GfxState)
    (frame : VideoFrame)
    (hOpen : s.gfxOpen = true) (hCaps : s.capsConfirmed = true)
    (hSize : frame.size.isEmpty = true) (hData : frame.data.length ≠ 0)
    (hFresh : s.allocCount % 4294967296 ∉ s.sentFrameIds) :
    (sendFrame c s frame).1.allocCount = s.allocCount + 1 ∧
    (sendFrame c s frame).1.encodedFrames = s.encodedFrames + 1 ∧
    s.allocCount % 4294967296 ∈ (sendFrame c s frame).1.pendingFrames ∧
    ((sendFrame c s frame).2.all fun p => !isFramePdu p) = true ∧
    (sendFrame c s frame).1.sentFrameIds = s.sentFrameIds ∧
    ∀ es : List StreamEvent,
      acksRefsSent (sendFrame c s frame).1 es = true →
      countSends es < 4294967296 →
      s.allocCount % 4294967296 ∈ (runEvents (sendFrame c s frame).1 es).pendingFrames ∧
      s.allocCount % 4294967296 ∉ (runEvents (sendFrame c s frame).1 es).sentFrameIds := by
  have hg : ¬((!s.gfxOpen || !s.capsConfirmed) = true) := by
    rw [hOpen, hCaps]
    decide
  have htd : toDamageRects frame = [] := toDamageRects_empty_size hSize
  have hmain : (sendFrame c s frame).1.allocCount = s.allocCount + 1 ∧
      (sendFrame c s frame).1.encodedFrames = s.encodedFrames + 1 ∧
      s.allocCount % 4294967296 ∈ (sendFrame c s frame).1.pendingFrames ∧
      ((sendFrame c s frame).2.all fun p => !isFramePdu p) = true ∧
      (sendFrame c s frame).1.sentFrameIds = s.sentFrameIds := by
    by_cases hp : s.pendingReset = true
    · simp only [sendFrame, if_neg hg, if_neg hData, hp, if_true, performReset, htd]
      simp [mem_insertPending_self, isFramePdu]
    · simp only [sendFrame, if_neg hg, if_neg hData, if_neg hp, htd]
      simp [mem_insertPending_self, isFramePdu]
  obtain ⟨h1, h2, h3, h4, h5⟩ := hmain
  refine ⟨h1, h2, h3, h4, h5, ?_⟩
  intro es hacks hcnt
  refine leak_preserved (s.allocCount % 4294967296) s.allocCount es
    (sendFrame c s frame).1 rfl ?_ ?_ h3 ?_ hacks
  · omega
  · omega
  · rw [h5]
    exact hFresh

/-- Claim C10, witness: a concrete state just after caps confirmation, an
empty-size frame with a one-byte payload, and the empty continuation
trace. -/
theorem sendFrame_empty_size_leak_witness :
    (sendFrame exClock exGfxState exEmptySizeFrame).1.allocCount =
      exGfxState.allocCount + 1 ∧
    (sendFrame exClock exGfxState exEmptySizeFrame).1.encodedFrames =
      exGfxState.encodedFrames + 1 ∧
    exGfxState.allocCount % 4294967296 ∈
      (sendFrame exClock exGfxState exEmptySizeFrame).1.pendingFrames ∧
    ((sendFrame exClock exGfxState exEmptySizeFrame).2.all
      fun p => !isFramePdu p) = true ∧
    (sendFrame exClock exGfxState exEmptySizeFrame).1.sentFrameIds =
      exGfxState.sentFrameIds ∧
    exGfxState.allocCount % 4294967296 ∈
      (runEvents (sendFrame exClock exGfxState exEmptySizeFrame).1 []).pendingFrames ∧
    exGfxState.allocCount % 4294967296 ∉
      (runEvents (sendFrame exClock exGfxState exEmptySizeFrame).1 []).sentFrameIds := by
  have h := sendFrame_empty_size_leak exClock exGfxState exEmptySizeFrame
    rfl rfl (by decide) (by decide) (by decide)
  have h6 := h.2.2.2.2.2 [] rfl (by decide)
  exact ⟨h.1, h.2.1, h.2.2.1, h.2.2.2.1, h.2.2.2.2.1, h6.1, h6.2⟩

/-! ## Claim C8 -/

theorem emitFrame_none_damage (sz : QSize) (pk : Packet) :
    (emitFrame sz pk none).damage = fullFrameDamage sz := by
  simp [emitFrame]

/-- With an empty metadata queue, one drain pass emits some initial
segment of the packet queue, each packet paired with no metadata, leaves
exactly the remaining suffix queued, and emits no starvation log when the
rate limiter forbids one. -/
theorem processLoop_drain (now : Int) :
    ∀ (fuel : Nat) (s : PairerState),
      s.pendingFrameMetadata = [] →
      ∃ k, k ≤ s.pendingPackets.length ∧
        (processLoop fuel now s).frames =
          (s.pendingPackets.take k).map
            (fun pp => emitFrame s.sessionSize pp.packet none) ∧
        (processLoop fuel now s).state.pendingPackets =
          s.pendingPackets.drop k ∧
        (¬(s.lastMetadataMissLog = 0 ∨
            MetadataMissLogPeriod ≤ now - s.lastMetadataMissLog) →
          (processLoop fuel now s).logTimes = []) := by
  intro fuel
  induction fuel with
  | zero =>
    intro s hm
    exact ⟨0, Nat.zero_le _, rfl, rfl, fun _ => rfl⟩
  | succ n ih =>
    intro s hm
    cases hq : s.pendingPackets with
    | nil =>
      refine ⟨0, Nat.zero_le _, ?_, ?_, ?_⟩
      · simp [processLoop, hq]
      · simp [processLoop, hq]
      · intro _
        simp [processLoop, hq]
    | cons p rest =>
      have hrec : ∀ s2 : PairerState, s2.pendingPackets = rest →
          s2.pendingFrameMetadata = [] →
          s2.sessionSize = s.sessionSize →
          ∃ k, k ≤ rest.length ∧
            (processLoop n now s2).frames =
              (rest.take k).map
                (fun pp => emitFrame s.sessionSize pp.packet none) ∧
            (processLoop n now s2).state.pendingPackets = rest.drop k ∧
            (¬(s2.lastMetadataMissLog = 0 ∨
                MetadataMissLogPeriod ≤ now - s2.lastMetadataMissLog) →
              (processLoop n now s2).logTimes = []) := by
        intro s2 h1 h2 h3
        obtain ⟨k, hk1, hk2, hk3, hk4⟩ := ih s2 h2
        rw [h1] at hk1 hk3
        rw [h1, h3] at hk2
        exact ⟨k, hk1, hk2, hk3, hk4⟩
      simp only [processLoop, hq, hm]
      split
      · obtain ⟨k, hk1, hk2, hk3, hk4⟩ :=
          hrec {s with pendingFrameMetadata := [], pendingPackets := rest} rfl rfl rfl
        refine ⟨k + 1, by simp only [List.length_cons]; omega, ?_, ?_, ?_⟩
        · simp only [List.take_succ_cons, List.map_cons, hk2]
        · simp only [List.drop_succ_cons, hk3]
        · intro hna
          exact hk4 hna
      · split
        · by_cases hlog : (decide (s.lastMetadataMissLog = 0) ||
              decide (now - s.lastMetadataMissLog ≥ MetadataMissLogPeriod)) = true
          · simp only [if_pos hlog]
            obtain ⟨k, hk1, hk2, hk3, hk4⟩ :=
              hrec {s with pendingFrameMetadata := [], pendingPackets := rest, lastMetadataMissLog := now} rfl rfl rfl
            refine ⟨k + 1, by simp only [List.length_cons]; omega, ?_, ?_, ?_⟩
            · simp only [List.take_succ_cons, List.map_cons, hk2]
            · simp only [List.drop_succ_cons, hk3]
            · intro hna
              exfalso
              simp only [Bool.or_eq_true, decide_eq_true_eq, ge_iff_le] at hlog
              exact hna hlog
          · simp only [if_neg hlog]
            obtain ⟨k, hk1, hk2, hk3, hk4⟩ :=
              hrec {s with pendingPackets := rest} rfl hm rfl
            refine ⟨k + 1, by simp only [List.length_cons]; omega, ?_, ?_, ?_⟩
            · simp only [List.take_succ_cons, List.map_cons, List.nil_append, hk2]
            · simp only [List.drop_succ_cons, hk3]
            · intro hna
              simp only [List.nil_append]
              exact hk4 hna
        · refine ⟨0, Nat.zero_le _, rfl, ?_, fun _ => rfl⟩
          rw [List.drop_zero]
          exact hq

/-- Claim C8: with the metadata channel available, metadata seen at least
once and the metadata queue empty, enqueuing a packet that pushes the
pending-packet queue beyond MaxPendingPacketsWithoutMetadata (8) makes the
drain emit the oldest pending packet immediately, paired with no metadata
and hence carrying full-frame damage; the emitted frames are an initial
segment of the queue in arrival order (each packet released at most once),
the remaining suffix stays queued, and the starvation log fires exactly
when the two-second rate limiter allows, at most once per drain. -/
theorem starvation_drains_oldest (now : Int) (s : PairerState)
    (p : PendingEncodedPacket) (rest : List PendingEncodedPacket)
    (packet : Packet)
    (hq : s.pendingPackets = p :: rest)
    (hm : s.pendingFrameMetadata = [])
    (havail : s.metadataSignalAvailable = true)
    (hseen : s.metadataSeen = true)
    (hkey : p.packet.isKeyFrame = false)
    (hdeep : MaxPendingPacketsWithoutMetadata <
      (s.pendingPackets ++ [(⟨packet, now⟩ : PendingEncodedPacket)]).length)
    (hnow : now ≠ 0) :
    ∃ k, 1 ≤ k ∧
      k ≤ (s.pendingPackets ++ [(⟨packet, now⟩ : PendingEncodedPacket)]).length ∧
      (onPacketReceived now s packet).frames =
        ((s.pendingPackets ++ [(⟨packet, now⟩ : PendingEncodedPacket)]).take k).map
          (fun pp => emitFrame s.sessionSize pp.packet none) ∧
      (onPacketReceived now s packet).state.pendingPackets =
        (s.pendingPackets ++ [(⟨packet, now⟩ : PendingEncodedPacket)]).drop k ∧
      (onPacketReceived now s packet).frames.head? =
        some (emitFrame s.sessionSize p.packet none) ∧
      (emitFrame s.sessionSize p.packet none).damage =
        fullFrameDamage s.sessionSize ∧
      (onPacketReceived now s packet).logTimes.length ≤ 1 ∧
      ((s.lastMetadataMissLog = 0 ∨
          MetadataMissLogPeriod ≤ now - s.lastMetadataMissLog) →
        (onPacketReceived now s packet).logTimes = [now]) ∧
      (¬(s.lastMetadataMissLog = 0 ∨
          MetadataMissLogPeriod ≤ now - s.lastMetadataMissLog) →
        (onPacketReceived now s packet).logTimes = []) := by
  have hq' : s.pendingPackets ++ [(⟨packet, now⟩ : PendingEncodedPacket)] =
      p :: (rest ++ [⟨packet, now⟩]) := by
    rw [hq]
    rfl
  have hop : onPacketReceived now s packet =
      processLoop ((rest ++ [(⟨packet, now⟩ : PendingEncodedPacket)]).length + 1) now
        {s with pendingPackets := p :: (rest ++ [⟨packet, now⟩])} := by
    simp only [onPacketReceived, processPendingPackets, hq', List.length_cons]
  have hdeep2 : (decide
      (({s with pendingPackets :=
          p :: (rest ++ [(⟨packet, now⟩ : PendingEncodedPacket)])} :
        PairerState).pendingPackets.length > MaxPendingPacketsWithoutMetadata)) = true := by
    rw [decide_eq_true_eq]
    rw [hq'] at hdeep
    exact hdeep
  rw [hq']
  rw [hop]
  simp only [processLoop, hm, havail, hseen, hkey, Bool.not_true, Bool.or_self,
    Bool.false_or, Bool.or_false, hdeep2, Bool.or_true, if_true,
    Bool.false_eq_true, if_false]
  by_cases hlog : (decide (s.lastMetadataMissLog = 0) ||
      decide (now - s.lastMetadataMissLog ≥ MetadataMissLogPeriod)) = true
  · simp only [if_pos hlog]
    obtain ⟨k, hk1, hk2, hk3, hk4⟩ :=
      processLoop_drain now (rest ++ [(⟨packet, now⟩ : PendingEncodedPacket)]).length
        {s with pendingFrameMetadata := [], pendingPackets := rest ++ [⟨packet, now⟩], metadataSignalAvailable := true, metadataSeen := true, lastMetadataMissLog := now} rfl
    dsimp only at hk1 hk2 hk3 hk4
    have hnolog : (processLoop (rest ++ [(⟨packet, now⟩ : PendingEncodedPacket)]).length now
        {s with pendingFrameMetadata := [], pendingPackets := rest ++ [⟨packet, now⟩], metadataSignalAvailable := true, metadataSeen := true, lastMetadataMissLog := now}).logTimes = [] := by
      apply hk4
      intro hcontra
      rcases hcontra with hcontra | hcontra
      · exact hnow hcontra
      · simp only [MetadataMissLogPeriod] at hcontra
        omega
    refine ⟨k + 1, by omega, by simp only [List.length_cons]; omega, ?_, ?_, ?_, ?_, ?_, ?_, ?_⟩
    · simp only [List.take_succ_cons, List.map_cons, hk2]
    · simp only [List.drop_succ_cons, hk3]
    · simp only [List.head?_cons]
    · exact emitFrame_none_damage _ _
    · simp only [hnolog]
      simp
    · intro _
      simp only [hnolog]
      simp
    · intro hna
      exfalso
      simp only [Bool.or_eq_true, decide_eq_true_eq, ge_iff_le] at hlog
      exact hna hlog
  · simp only [if_neg hlog]
    obtain ⟨k, hk1, hk2, hk3, hk4⟩ :=
      processLoop_drain now (rest ++ [(⟨packet, now⟩ : PendingEncodedPacket)]).length
        {s with pendingFrameMetadata := [], pendingPackets := rest ++ [⟨packet, now⟩], metadataSignalAvailable := true, metadataSeen := true} rfl
    dsimp only at hk1 hk2 hk3 hk4
    have hna : ¬(s.lastMetadataMissLog = 0 ∨
        MetadataMissLogPeriod ≤ now - s.lastMetadataMissLog) := by
      intro hcontra
      apply hlog
      rw [Bool.or_eq_true]
      rcases hcontra with hcontra | hcontra
      · exact Or.inl (decide_eq_true hcontra)
      · exact Or.inr (decide_eq_true hcontra)
    have hnolog := hk4 hna
    refine ⟨k + 1, by omega, by simp only [List.length_cons]; omega, ?_, ?_, ?_, ?_, ?_, ?_, ?_⟩
    · simp only [List.take_succ_cons, List.map_cons, hk2]
    · simp only [List.drop_succ_cons, hk3]
    · simp only [List.head?_cons]
    · exact emitFrame_none_damage _ _
    · simp only [List.nil_append, hnolog]
      simp
    · intro hcontra
      exact absurd hcontra hna
    · intro _
      simp only [List.nil_append, hnolog]

/-- Claim C8, witness: eight queued non-key packets with no metadata; the
ninth arrival pushes the queue depth over the bound and the drain emits
the oldest with full-frame damage, logging once. -/
theorem starvation_drains_oldest_witness :
    ∃ k, 1 ≤ k ∧
      k ≤ (exStarvedState.pendingPackets ++
        [(⟨exPacket 8, 5⟩ : PendingEncodedPacket)]).length ∧
      (onPacketReceived 5 exStarvedState (exPacket 8)).frames =
        ((exStarvedState.pendingPackets ++
          [(⟨exPacket 8, 5⟩ : PendingEncodedPacket)]).take k).map
          (fun pp => emitFrame exStarvedState.sessionSize pp.packet none) ∧
      (onPacketReceived 5 exStarvedState (exPacket 8)).state.pendingPackets =
        (exStarvedState.pendingPackets ++
          [(⟨exPacket 8, 5⟩ : PendingEncodedPacket)]).drop k ∧
      (onPacketReceived 5 exStarvedState (exPacket 8)).frames.head? =
        some (emitFrame exStarvedState.sessionSize (⟨exPacket 0, 0⟩ :
          PendingEncodedPacket).packet none) ∧
      (emitFrame exStarvedState.sessionSize (⟨exPacket 0, 0⟩ :
        PendingEncodedPacket).packet none).damage =
        fullFrameDamage exStarvedState.sessionSize ∧
      (onPacketReceived 5 exStarvedState (exPacket 8)).logTimes.length ≤ 1 ∧
      ((exStarvedState.lastMetadataMissLog = 0 ∨
          MetadataMissLogPeriod ≤ 5 - exStarvedState.lastMetadataMissLog) →
        (onPacketReceived 5 exStarvedState (exPacket 8)).logTimes = [5]) ∧
      (¬(exStarvedState.lastMetadataMissLog = 0 ∨
          MetadataMissLogPeriod ≤ 5 - exStarvedState.lastMetadataMissLog) →
        (onPacketReceived 5 exStarvedState (exPacket 8)).logTimes = []) :=
  starvation_drains_oldest 5 exStarvedState ⟨exPacket 0, 0⟩
    [⟨exPacket 1, 0⟩, ⟨exPacket 2, 0⟩, ⟨exPacket 3, 0⟩, ⟨exPacket 4, 0⟩,
      ⟨exPacket 5, 0⟩, ⟨exPacket 6, 0⟩, ⟨exPacket 7, 0⟩]
    (exPacket 8) rfl rfl rfl rfl rfl (by decide) (by decide)

/-- Claim C2, witness: the amended selection applied to the two-set
advertisement of the counterexample. -/
theorem capsConfirm_first_max_version_witness :
    ∃ pre chosen post,
      [(⟨RDPGFX_CAPVERSION_104, RDPGFX_CAPS_FLAG_AVC_DISABLED⟩ : RDPGFX_CAPSET),
        ⟨RDPGFX_CAPVERSION_81, RDPGFX_CAPS_FLAG_AVC420_ENABLED⟩] = pre ++ chosen :: post ∧
      onCapsAdvertise
          [⟨RDPGFX_CAPVERSION_104, RDPGFX_CAPS_FLAG_AVC_DISABLED⟩,
            ⟨RDPGFX_CAPVERSION_81, RDPGFX_CAPS_FLAG_AVC420_ENABLED⟩] =
        CapsOutcome.confirmed chosen ∧
      (∀ t ∈ pre, t.version < chosen.version) ∧
      (∀ t ∈ post, t.version ≤ chosen.version) :=
  (capsConfirm_first_max_version
    [⟨RDPGFX_CAPVERSION_104, RDPGFX_CAPS_FLAG_AVC_DISABLED⟩,
      ⟨RDPGFX_CAPVERSION_81, RDPGFX_CAPS_FLAG_AVC420_ENABLED⟩]).2 (by decide)

end KRdp
